import Mathlib

/-!
Verification of the segment analysis stage of primesieve
(src/soe/PrimeNumberFinder.cpp), shallowly embedded in Lean 4.

The sieve byte array is modelled as a `List (Fin 256)`; machine integers
become `Nat` (no arithmetic here ever overflows 32/64 bits for realistic
segment sizes, and the C code performs no wrap-around-dependent
computation in the analysed functions).
-/

set_option maxRecDepth 10000

namespace PrimeNumberFinder

/-- `COUNTS_SIZE`: the 7 tuplet classes (prime .. septuplet). -/
def COUNTS_SIZE : Nat := 7

/-- `NUMBERS_PER_BYTE`: each sieve byte covers 30 numbers. -/
def NUMBERS_PER_BYTE : Nat := 30

/-- `END = BYTE_SIZE = 1 << 8`: the sentinel terminating lookup rows. -/
def END : Nat := 256

/-- The `bitmasks` table of `initLookupTables`, one ascending pattern list
per tuplet class.  In the C source every row is terminated by `END`
(= 256); since the scan condition is `*b <= j` with `j <= 255`, that
sentinel only serves to stop the scan, so rows are modelled without it
and the scan as `takeWhile`. -/
def bitmasks : Fin 7 → List Nat
  | 0 => [0x01, 0x02, 0x04, 0x08, 0x10, 0x20, 0x40, 0x80]
  | 1 => [0x06, 0x18, 0xc0]
  | 2 => [0x07, 0x0e, 0x1c, 0x38]
  | 3 => [0x1e]
  | 4 => [0x1f, 0x3e]
  | 5 => [0x3f]
  | 6 => [0xfe]

/-- The inner loop of `initLookupTables` building `primeByteCounts_[i][j]`:
scan class `i`'s ascending pattern list, stop at the first pattern
exceeding `j`, and count the patterns fully contained in `j`. -/
def primeByteCounts (i : Fin 7) (j : Nat) : Nat :=
  (((bitmasks i).takeWhile (fun b => b ≤ j)).filter
    (fun b => Nat.land j b == b)).length

/-- The same count without the early exit: scan the entire pattern list. -/
def fullScanCount (i : Fin 7) (j : Nat) : Nat :=
  ((bitmasks i).filter (fun b => Nat.land j b == b)).length

/-- Number of set bits of a byte value (bits 0..7). -/
def popcount (j : Nat) : Nat :=
  ((List.range 8).filter (fun k => Nat.testBit j k)).length

/-- Shared fact: the Prime-class count-table entry is the population count
of the byte.  Proved once here and reused by the counting equivalence. -/
lemma primeByteCounts_zero_eq_popcount :
    ∀ j : Fin 256, primeByteCounts 0 j.val = popcount j.val := by decide

/-- The pure lookup-table counting loop of `count`: sum the class-`i`
count-table entries over all bytes of the segment. -/
def tableCount (i : Fin 7) (sieve : List (Fin 256)) : Nat :=
  (sieve.map (fun b => primeByteCounts i b.val)).sum

/-- Modelled from the spec: the `POPCNT64` macro (defs.h, which is not in
src/) returns "the population count of each chunk" — the number of set
bits in the 8 bytes `sieve[i..i+7]`. -/
def popcnt64 (chunk : List (Fin 256)) : Nat :=
  (chunk.map (fun b => popcount b.val)).sum

/-- The plain-prime counting loop of `count` with the SSE4_POPCNT fast
path: while `i + 8 < sieveSize` (i.e. more than 8 bytes remain) consume
an 8-byte chunk with `POPCNT64`; the remaining bytes go through the
per-byte count table. -/
def primeCountHW (sieve : List (Fin 256)) : Nat :=
  if 8 < sieve.length then popcnt64 (sieve.take 8) + primeCountHW (sieve.drop 8)
  else tableCount 0 sieve
termination_by sieve.length
decreasing_by simp [List.length_drop]; omega

/-- Number of bytes consumed by the chunked fast-path loop of `count`
(the final value of `i` after `for (; i + 8 < sieveSize; i += 8)`). -/
def hwChunked (n : Nat) : Nat :=
  if 8 < n then 8 + hwChunked (n - 8) else 0
termination_by n
decreasing_by omega

/-- Number of bytes of the segment left to the per-byte table loop. -/
def hwTail (n : Nat) : Nat := n - hwChunked n

/-- The total contributed by the `POPCNT64` chunks alone. -/
def popChunks (sieve : List (Fin 256)) : Nat :=
  if 8 < sieve.length then popcnt64 (sieve.take 8) + popChunks (sieve.drop 8)
  else 0
termination_by sieve.length
decreasing_by simp [List.length_drop]; omega

lemma tableCount_append (i : Fin 7) (a b : List (Fin 256)) :
    tableCount i (a ++ b) = tableCount i a + tableCount i b := by
  simp [tableCount]

lemma popcnt64_eq_tableCount (chunk : List (Fin 256)) :
    popcnt64 chunk = tableCount 0 chunk := by
  induction chunk with
  | nil => rfl
  | cons b t ih =>
      simp [popcnt64, tableCount] at ih ⊢
      rw [← primeByteCounts_zero_eq_popcount b, ih]

lemma primeCountHW_eq_tableCount (sieve : List (Fin 256)) :
    primeCountHW sieve = tableCount 0 sieve := by
  have key : ∀ n (s : List (Fin 256)), s.length ≤ n →
      primeCountHW s = tableCount 0 s := by
    intro n
    induction n with
    | zero =>
        intro s h
        rw [primeCountHW, if_neg (by omega)]
    | succ n ih =>
        intro s h
        rw [primeCountHW]
        by_cases hgt : 8 < s.length
        · rw [if_pos hgt, ih (s.drop 8) (by simp; omega),
            popcnt64_eq_tableCount]
          rw [← tableCount_append, List.take_append_drop]
        · rw [if_neg hgt]
  exact key sieve.length sieve le_rfl

/-- The fast-path count decomposes as the chunk contribution plus the
table-path contribution over the tail left by the chunked loop. -/
lemma primeCountHW_split (s : List (Fin 256)) :
    primeCountHW s = popChunks s + tableCount 0 (s.drop (hwChunked s.length)) := by
  have key : ∀ n (s : List (Fin 256)), s.length ≤ n →
      primeCountHW s = popChunks s + tableCount 0 (s.drop (hwChunked s.length)) := by
    intro n
    induction n with
    | zero =>
        intro s h
        rw [primeCountHW, if_neg (by omega), popChunks, if_neg (by omega),
          hwChunked, if_neg (by omega)]
        simp
    | succ n ih =>
        intro s h
        by_cases hgt : 8 < s.length
        · rw [primeCountHW, if_pos hgt, popChunks, if_pos hgt,
            hwChunked, if_pos hgt, ih (s.drop 8) (by simp; omega)]
          have hdrop : s.drop (8 + hwChunked (s.length - 8)) =
              (s.drop 8).drop (hwChunked ((s.drop 8).length)) := by
            rw [List.drop_drop, List.length_drop]
          rw [hdrop]
          omega
        · rw [primeCountHW, if_neg hgt, popChunks, if_neg hgt,
            hwChunked, if_neg hgt]
          simp
  exact key s.length s le_rfl

lemma hwTail_eq (n : Nat) (h : 1 ≤ n) : hwTail n = (n - 1) % 8 + 1 := by
  have key : ∀ m n, n ≤ m → 1 ≤ n → hwTail n = (n - 1) % 8 + 1 := by
    intro m
    induction m with
    | zero => intro n h1 h2; omega
    | succ m ih =>
        intro n h1 h2
        by_cases hgt : 8 < n
        · have : hwTail n = hwTail (n - 8) := by
            unfold hwTail
            rw [hwChunked, if_pos hgt]
            omega
          rw [this, ih (n - 8) (by omega) (by omega)]
          have : n - 1 = (n - 8 - 1) + 8 := by omega
          rw [this, Nat.add_mod_right]
        · unfold hwTail
          rw [hwChunked, if_neg hgt]
          omega
  exact key n n le_rfl h

/-- Modelled from the spec: the residue-slot→offset table `bitValues_`
belongs to SieveOfEratosthenes, which is not in src/.  The spec fixes
slot0→7, slot1→11, slot2→13 (scenarios of §8) and the chain table
`nextBitValue_` of the source links 7→11→13→17→19→23→29→31, giving the
standard modulo-30 wheel offsets. -/
def bitValues : List Nat := [7, 11, 13, 17, 19, 23, 29, 31]

/-- Modelled from the spec: `ntz` (pmath.h, not in src/) is the number of
trailing zeros — "compute the lowest set bit of the pattern" (§4.1).
Patterns are bytes, so eight bit positions suffice. -/
def ntz (n : Nat) : Nat :=
  ((List.range 8).takeWhile (fun k => !(Nat.testBit n k))).length

/-- The inner loop of `initLookupTables` building `primeBitValues_[i]` for
the active generation class `g`: scan the pattern list, stop at the first
pattern exceeding `i`, append `bitValues_[ntz(*b)]` for each contained
pattern, and terminate the row with the sentinel `END`. -/
def primeBitValues (g : Fin 7) (i : Nat) : List Nat :=
  ((((bitmasks g).takeWhile (fun b => b ≤ i)).filter
      (fun b => Nat.land i b == b)).map
    (fun b => bitValues.getD (ntz b) 0)) ++ [END]

/-- The walk of a value-sequence row performed by `generate`: follow the
row until the sentinel `END`. -/
def rowValues (g : Fin 7) (b : Nat) : List Nat :=
  (primeBitValues g b).takeWhile (fun v => v ≠ END)

/-- The per-prime loops of `generate` (callback, OOP callback and print
branches all reconstruct the same values): a running `byteValue` starts
at the segment low value, advances by `NUMBERS_PER_BYTE` (30) per byte,
and each row entry yields `byteValue + entry`. -/
def generatePrimes (g : Fin 7) : Nat → List (Fin 256) → List Nat
  | _, [] => []
  | byteValue, b :: rest =>
      ((rowValues g b.val).map (fun v => byteValue + v)) ++
        generatePrimes g (byteValue + NUMBERS_PER_BYTE) rest

/-- The `nextBitValue_` chain table of the source (index = residue value,
value = next residue of the same tuplet). -/
def nextBitValueTable : List Nat :=
  [0,
   0, 0, 0, 0, 0, 0,
   11, 0, 0, 0, 13, 0,
   17, 0, 0, 0, 19, 0,
   23, 0, 0, 0, 29, 0,
   0, 0, 0, 0, 31]

/-- Lookup in the chain table. -/
def nextBitValue (v : Nat) : Nat := nextBitValueTable.getD v 0

/-- The inner ladder loop of the tuplet-printing branch of `generate`:
starting at row entry `v`, print `g` leading members (each followed by
`", "`, advancing through the chain table) and then the final member
followed by `")\n"`; `g` is the class index, so the tuplet has `g + 1`
members. -/
def ktupletStr (byteValue : Nat) : Nat → Nat → String
  | v, 0 => toString (byteValue + v) ++ ")\n"
  | v, g + 1 =>
      toString (byteValue + v) ++ ", " ++ ktupletStr byteValue (nextBitValue v) g

/-- The tuplet-printing branch of `generate`: for each byte, one line
`"(" ++ ktupletStr ..` per row entry, `byteValue` advancing by 30. -/
def generateTuplets (g : Fin 7) : Nat → List (Fin 256) → String
  | _, [] => ""
  | byteValue, b :: rest =>
      String.join ((rowValues g b.val).map
        (fun v => "(" ++ ktupletStr byteValue v g.val)) ++
        generateTuplets g (byteValue + NUMBERS_PER_BYTE) rest

/-- The members of one tuplet occurrence: the row entry `v` followed by
`g` successive lookups in the chain table. -/
def chainMembers (v : Nat) : Nat → List Nat
  | 0 => [v]
  | g + 1 => v :: chainMembers (nextBitValue v) g

/-- Rendering of a tuplet's member list following the spec's words:
`v1, v2, ..., vN)` plus line break (the opening parenthesis is prepended
by `tupletLineSpec`). -/
def renderMembers (B : Nat) : List Nat → String
  | [] => ""
  | [x] => toString (B + x) ++ ")\n"
  | x :: y :: t => toString (B + x) ++ ", " ++ renderMembers B (y :: t)

/-- One output line per tuplet occurrence, as the spec words it:
`(v1, v2, ..., vN)` followed by a line break. -/
def tupletLineSpec (B : Nat) (members : List Nat) : String :=
  "(" ++ renderMembers B members

lemma chainMembers_length (v g : Nat) : (chainMembers v g).length = g + 1 := by
  induction g generalizing v with
  | zero => rfl
  | succ g ih => simp [chainMembers, ih]

lemma ktupletStr_eq_renderMembers (B : Nat) :
    ∀ (g v : Nat), ktupletStr B v g = renderMembers B (chainMembers v g) := by
  intro g
  induction g with
  | zero => intro v; rfl
  | succ g ih =>
      intro v
      obtain ⟨y, t, hyt⟩ : ∃ y t, chainMembers (nextBitValue v) g = y :: t := by
        cases g <;> exact ⟨_, _, rfl⟩
      rw [ktupletStr, chainMembers, hyt, renderMembers, ← hyt, ih]

/-- The running-byte-value characterization of the per-prime generation
loop: byte `i` contributes its row entries shifted by `L + 30 * i`. -/
lemma generatePrimes_indexed (g : Fin 7) :
    ∀ (sieve : List (Fin 256)) (L : Nat),
      generatePrimes g L sieve =
        ((List.range sieve.length).map
          (fun i => (rowValues g (sieve.getD i 0).val).map
            (fun v => L + NUMBERS_PER_BYTE * i + v))).flatten := by
  intro sieve
  induction sieve with
  | nil => intro L; rfl
  | cons b rest ih =>
      intro L
      rw [generatePrimes, ih (L + NUMBERS_PER_BYTE)]
      simp only [List.length_cons, List.range_succ_eq_map, List.map_cons,
        List.map_map, List.flatten_cons, List.getD_cons_zero, Nat.mul_zero,
        Nat.add_zero]
      congr 1
      congr 1
      apply List.map_congr_left
      intro i _
      simp only [Function.comp_apply, List.getD_cons_succ]
      apply List.map_congr_left
      intro v _
      simp only [NUMBERS_PER_BYTE]
      omega

end PrimeNumberFinder

/-- C5: for every tuplet class and every byte value b, the value-sequence
row is strictly ascending, terminated by the sentinel END, of total
length at most 9 including the sentinel, and the row for byte value 0 is
exactly `[END]`. -/
theorem C5_value_row_invariants :
    ∀ (g : Fin 7) (b : Fin 256),
      List.Pairwise (fun a c => a < c)
        (PrimeNumberFinder.primeBitValues g b.val) ∧
      (PrimeNumberFinder.primeBitValues g b.val).getLastD 0 =
        PrimeNumberFinder.END ∧
      (PrimeNumberFinder.primeBitValues g b.val).length ≤ 9 ∧
      PrimeNumberFinder.primeBitValues g 0 = [PrimeNumberFinder.END] := by
  decide

/-- C6: generate() keeps a running value starting at the segment low
value and advancing by exactly 30 per byte; byte i's row entries are
emitted, in row order, as runningValue + entry; in particular segment
[0x03] at segment low 0 with plain primes emits 7 then 11. -/
theorem C6_generate_running_value_and_scenario :
    (∀ (L : Nat) (sieve : List (Fin 256)),
      PrimeNumberFinder.generatePrimes 0 L sieve =
        ((List.range sieve.length).map
          (fun i => (PrimeNumberFinder.rowValues 0 (sieve.getD i 0).val).map
            (fun v => L + PrimeNumberFinder.NUMBERS_PER_BYTE * i + v))).flatten) ∧
    PrimeNumberFinder.generatePrimes 0 0 [(3 : Fin 256)] = [7, 11] :=
  ⟨fun L sieve => PrimeNumberFinder.generatePrimes_indexed 0 sieve L, by decide⟩

/-- C7: each tuplet occurrence prints the row entry (the tuplet's lowest
member) followed by the N−1 members obtained by successive chain-table
lookups, formatted `(v1, v2, ..., vN)` plus newline; segment [0x06] with
twin generation at segment low 0 outputs exactly `(11, 13)\n`. -/
theorem C7_tuplet_emission_chain_and_scenario :
    (∀ (B v g : Nat),
      "(" ++ PrimeNumberFinder.ktupletStr B v g =
        PrimeNumberFinder.tupletLineSpec B
          (PrimeNumberFinder.chainMembers v g)) ∧
    (∀ (v g : Nat), (PrimeNumberFinder.chainMembers v g).length = g + 1) ∧
    PrimeNumberFinder.generateTuplets 1 0 [(6 : Fin 256)] = "(11, 13)\n" :=
  ⟨fun B v g => by
      rw [PrimeNumberFinder.ktupletStr_eq_renderMembers B g v]
      rfl,
   PrimeNumberFinder.chainMembers_length,
   by decide⟩

/-- C1: for every byte value j in [0,255], the count-table entry for the
Prime class at j (`primeByteCounts_[0][j]`) equals the number of set bits
in j. -/
theorem C1_prime_count_table_is_popcount :
    ∀ j : Fin 256,
      PrimeNumberFinder.primeByteCounts 0 j.val =
        PrimeNumberFinder.popcount j.val := by decide

/-- C3: for every tuplet class and every byte value j in [0,255], the
early-exit scan (stop at the first pattern exceeding j) counts exactly
the same contained patterns as scanning the entire pattern list. -/
theorem C3_early_exit_equals_full_scan :
    ∀ (i : Fin 7) (j : Fin 256),
      PrimeNumberFinder.primeByteCounts i j.val =
        PrimeNumberFinder.fullScanCount i j.val := by decide

/-- C2: for every segment, the plain-prime count produced by the hardware
population-count path (8-byte POPCNT chunks, remaining bytes via the
per-byte table) equals the count produced by the pure lookup-table path,
so `count()` adds the same total to `counts_[0]` either way. -/
theorem C2_hw_count_equals_table_count :
    ∀ sieve : List (Fin 256),
      PrimeNumberFinder.primeCountHW sieve =
        PrimeNumberFinder.tableCount 0 sieve :=
  PrimeNumberFinder.primeCountHW_eq_tableCount

/-- C4 counterexample: a segment of 8 bytes (a multiple of 8) leaves a
tail of 8 bytes to the table path, so the tail is not "at most 7 bytes"
as claimed. -/
theorem C4_counterexample_tail_of_eight :
    PrimeNumberFinder.hwTail 8 = 8 ∧ ¬ PrimeNumberFinder.hwTail 8 ≤ 7 := by
  constructor <;>
    simp [PrimeNumberFinder.hwTail, PrimeNumberFinder.hwChunked]

/-- C4 amended: for every non-empty segment, the chunked loop leaves a
tail of `((length - 1) mod 8) + 1` bytes — between 1 and 8, not at most
7 — to the per-byte table path; the tail is exactly 8 when the length is
a multiple of 8, i.e. the final chunk always falls back to the table
path, and the fast-path count is the chunk contributions plus the table
count of that tail. -/
theorem C4_amended_tail_bounds :
    ∀ sieve : List (Fin 256), 1 ≤ sieve.length →
      PrimeNumberFinder.primeCountHW sieve =
        PrimeNumberFinder.popChunks sieve +
          PrimeNumberFinder.tableCount 0
            (sieve.drop (PrimeNumberFinder.hwChunked sieve.length)) ∧
      PrimeNumberFinder.hwTail sieve.length = (sieve.length - 1) % 8 + 1 ∧
      1 ≤ PrimeNumberFinder.hwTail sieve.length ∧
      PrimeNumberFinder.hwTail sieve.length ≤ 8 ∧
      (PrimeNumberFinder.hwTail sieve.length = 8 ↔ sieve.length % 8 = 0) := by
  intro sieve h
  have ht := PrimeNumberFinder.hwTail_eq sieve.length h
  refine ⟨PrimeNumberFinder.primeCountHW_split sieve, ht, by omega, by omega, ?_⟩
  rw [ht]
  omega

/-- Witness for C4 amended at the concrete 16-byte segment of zero
bytes. -/
theorem C4_amended_tail_bounds_witness :
    1 ≤ (List.replicate 16 (0 : Fin 256)).length ∧
      (PrimeNumberFinder.primeCountHW (List.replicate 16 (0 : Fin 256)) =
        PrimeNumberFinder.popChunks (List.replicate 16 (0 : Fin 256)) +
          PrimeNumberFinder.tableCount 0
            ((List.replicate 16 (0 : Fin 256)).drop
              (PrimeNumberFinder.hwChunked
                (List.replicate 16 (0 : Fin 256)).length)) ∧
      PrimeNumberFinder.hwTail (List.replicate 16 (0 : Fin 256)).length =
        ((List.replicate 16 (0 : Fin 256)).length - 1) % 8 + 1 ∧
      1 ≤ PrimeNumberFinder.hwTail (List.replicate 16 (0 : Fin 256)).length ∧
      PrimeNumberFinder.hwTail (List.replicate 16 (0 : Fin 256)).length ≤ 8 ∧
      (PrimeNumberFinder.hwTail (List.replicate 16 (0 : Fin 256)).length = 8 ↔
        (List.replicate 16 (0 : Fin 256)).length % 8 = 0)) :=
  ⟨by simp, C4_amended_tail_bounds (List.replicate 16 (0 : Fin 256)) (by simp)⟩

namespace PrimeNumberFinder

/-- Modelled from the spec: the flag constants live in PrimeSieve.h,
which is not in src/.  The configuration is therefore modelled
abstractly: one counting bit per tuplet class (`COUNT_PRIMES << i`), the
two callback flags, one printing bit per class (`PRINT_PRIMES << i`,
index 0 being plain primes) and the SSE4_POPCNT capability bit. -/
structure Flags where
  countEnabled : Fin 7 → Bool
  callbackPrimes : Bool
  callbackPrimesOOP : Bool
  printEnabled : Fin 7 → Bool
  sse4popcnt : Bool

/-- `flags_ & PrimeSieve::COUNT_FLAGS`: some counting class is enabled. -/
def countFlagsAny (fl : Flags) : Bool :=
  (List.finRange 7).any fl.countEnabled

/-- `flags_ & PrimeSieve::PRINT_FLAGS`: some printing class is enabled. -/
def printFlagsAny (fl : Flags) : Bool :=
  (List.finRange 7).any fl.printEnabled

/-- `flags_ & PrimeSieve::GENERATE_FLAGS`: a generation mode is active
(function callback, OOP callback, or any printing class). -/
def generateFlagsAny (fl : Flags) : Bool :=
  fl.callbackPrimes || fl.callbackPrimesOOP || printFlagsAny fl

/-- The observable effects of one `generate` call: values passed to the
plain callback, values passed to the OOP callback, and the text written
to standard output. -/
structure GenEffects where
  callbackCalls : List Nat
  oopCalls : List Nat
  output : String
deriving DecidableEq

/-- The plain-prime printing branch of `generate`: one line
`<decimal value>\n` per reconstructed prime. -/
def printPrimesStr (g : Fin 7) : Nat → List (Fin 256) → String
  | _, [] => ""
  | byteValue, b :: rest =>
      String.join ((rowValues g b.val).map
        (fun v => toString (byteValue + v) ++ "\n")) ++
        printPrimesStr g (byteValue + NUMBERS_PER_BYTE) rest

/-- The four-way emission dispatch of `generate`, in source order:
`CALLBACK_PRIMES`, else `CALLBACK_PRIMES_OOP`, else `PRINT_PRIMES`, else
the tuplet-printing fallback.  `g` is the generation class fixed at
construction. -/
def generate (fl : Flags) (g : Fin 7) (byteValue : Nat)
    (sieve : List (Fin 256)) : GenEffects :=
  if fl.callbackPrimes then ⟨generatePrimes g byteValue sieve, [], ""⟩
  else if fl.callbackPrimesOOP then ⟨[], generatePrimes g byteValue sieve, ""⟩
  else if fl.printEnabled 0 then ⟨[], [], printPrimesStr g byteValue sieve⟩
  else ⟨[], [], generateTuplets g byteValue sieve⟩

/-- The plain-prime total of `count`: the SSE4_POPCNT fast path when the
capability flag is set, the pure table path otherwise. -/
def countPrimeTotal (fl : Flags) (sieve : List (Fin 256)) : Nat :=
  if fl.sse4popcnt then primeCountHW sieve else tableCount 0 sieve

/-- The whole of `count`: add to each enabled class's shared counter the
segment's per-class total (prime class via `countPrimeTotal`, tuplet
classes via the count table). -/
def countStep (fl : Flags) (sieve : List (Fin 256))
    (counts : Fin 7 → Nat) : Fin 7 → Nat := fun i =>
  if fl.countEnabled i then
    counts i + (if i = 0 then countPrimeTotal fl sieve else tableCount i sieve)
  else counts i

/-- `analyseSieve`: run `count` if any counting flag is set, run
`generate` if any generation flag is set, and report
`sieveSize * NUMBERS_PER_BYTE` processed numbers via `doStatus`.  The
result is (new counters, generation effects, reported number). -/
def analyseSieve (fl : Flags) (g : Fin 7) (byteValue : Nat)
    (sieve : List (Fin 256)) (counts : Fin 7 → Nat) :
    (Fin 7 → Nat) × GenEffects × Nat :=
  (if countFlagsAny fl then countStep fl sieve counts else counts,
   if generateFlagsAny fl then generate fl g byteValue sieve else ⟨[], [], ""⟩,
   sieve.length * NUMBERS_PER_BYTE)

/-- The start number handed to the SieveOfEratosthenes base by the
PrimeNumberFinder constructor: `std::max<uint64_t>(ps->getStartNumber(), 7)`. -/
def finderStartNumber (requested : Nat) : Nat := max requested 7

end PrimeNumberFinder

/-- C8: analyseSieve runs the counter iff some counting flag is set,
runs the generator iff some generation flag is set, and in every case
reports segment length × 30 processed numbers. -/
theorem C8_analyseSieve_dispatch_and_status :
    ∀ (fl : PrimeNumberFinder.Flags) (g : Fin 7) (L : Nat)
      (sieve : List (Fin 256)) (counts : Fin 7 → Nat),
      (PrimeNumberFinder.analyseSieve fl g L sieve counts).2.2 =
        sieve.length * 30 ∧
      (PrimeNumberFinder.countFlagsAny fl = true →
        (PrimeNumberFinder.analyseSieve fl g L sieve counts).1 =
          PrimeNumberFinder.countStep fl sieve counts) ∧
      (PrimeNumberFinder.countFlagsAny fl = false →
        (PrimeNumberFinder.analyseSieve fl g L sieve counts).1 = counts) ∧
      (PrimeNumberFinder.generateFlagsAny fl = true →
        (PrimeNumberFinder.analyseSieve fl g L sieve counts).2.1 =
          PrimeNumberFinder.generate fl g L sieve) ∧
      (PrimeNumberFinder.generateFlagsAny fl = false →
        (PrimeNumberFinder.analyseSieve fl g L sieve counts).2.1 =
          ⟨[], [], ""⟩) := by
  intro fl g L sieve counts
  refine ⟨?_, ?_, ?_, ?_, ?_⟩ <;>
    intros <;>
    simp [PrimeNumberFinder.analyseSieve, PrimeNumberFinder.NUMBERS_PER_BYTE, *]

/-- Witness for C8 at the empty configuration (no flags), the empty
segment and the zero counters. -/
theorem C8_analyseSieve_dispatch_and_status_witness :
    (PrimeNumberFinder.analyseSieve
        ⟨fun _ => false, false, false, fun _ => false, false⟩ 0 0 []
        (fun _ => 0)).2.2 = ([] : List (Fin 256)).length * 30 ∧
    (PrimeNumberFinder.analyseSieve
        ⟨fun _ => false, false, false, fun _ => false, false⟩ 0 0 []
        (fun _ => 0)).1 = (fun _ => 0) ∧
    (PrimeNumberFinder.analyseSieve
        ⟨fun _ => false, false, false, fun _ => false, false⟩ 0 0 []
        (fun _ => 0)).2.1 = ⟨[], [], ""⟩ :=
  ⟨(C8_analyseSieve_dispatch_and_status
      ⟨fun _ => false, false, false, fun _ => false, false⟩ 0 0 []
      (fun _ => 0)).1,
   (C8_analyseSieve_dispatch_and_status
      ⟨fun _ => false, false, false, fun _ => false, false⟩ 0 0 []
      (fun _ => 0)).2.2.1 rfl,
   (C8_analyseSieve_dispatch_and_status
      ⟨fun _ => false, false, false, fun _ => false, false⟩ 0 0 []
      (fun _ => 0)).2.2.2.2 rfl⟩

/-- C9: the constructor clamps the sieving start to
max(requested start, 7): the start passed to the sieve base is always at
least 7, is exactly 7 for every requested start below 7, and is the
requested start otherwise. -/
theorem C9_constructor_clamps_start :
    ∀ s : Nat,
      7 ≤ PrimeNumberFinder.finderStartNumber s ∧
      (s < 7 → PrimeNumberFinder.finderStartNumber s = 7) ∧
      (7 ≤ s → PrimeNumberFinder.finderStartNumber s = s) := by
  intro s
  simp only [PrimeNumberFinder.finderStartNumber]
  omega

/-- Witness for C9 at the concrete requested start 3. -/
theorem C9_constructor_clamps_start_witness :
    7 ≤ PrimeNumberFinder.finderStartNumber 3 ∧
      PrimeNumberFinder.finderStartNumber 3 = 7 :=
  ⟨(C9_constructor_clamps_start 3).1,
   (C9_constructor_clamps_start 3).2.1 (by decide)⟩

/-- C10: generate() runs exactly one emission mode, selected by fixed
precedence — function callback, then OOP callback, then plain-prime
printing, with tuplet printing as the unconditional fallback; the
lower-precedence channels are untouched. -/
theorem C10_generate_mode_precedence :
    ∀ (fl : PrimeNumberFinder.Flags) (g : Fin 7) (L : Nat)
      (sieve : List (Fin 256)),
      (fl.callbackPrimes = true →
        PrimeNumberFinder.generate fl g L sieve =
          ⟨PrimeNumberFinder.generatePrimes g L sieve, [], ""⟩) ∧
      (fl.callbackPrimes = false → fl.callbackPrimesOOP = true →
        PrimeNumberFinder.generate fl g L sieve =
          ⟨[], PrimeNumberFinder.generatePrimes g L sieve, ""⟩) ∧
      (fl.callbackPrimes = false → fl.callbackPrimesOOP = false →
        fl.printEnabled 0 = true →
        PrimeNumberFinder.generate fl g L sieve =
          ⟨[], [], PrimeNumberFinder.printPrimesStr g L sieve⟩) ∧
      (fl.callbackPrimes = false → fl.callbackPrimesOOP = false →
        fl.printEnabled 0 = false →
        PrimeNumberFinder.generate fl g L sieve =
          ⟨[], [], PrimeNumberFinder.generateTuplets g L sieve⟩) := by
  intro fl g L sieve
  refine ⟨?_, ?_, ?_, ?_⟩ <;>
    intros <;>
    simp [PrimeNumberFinder.generate, *]

/-- Witness for C10: with every generation flag set, only the function
callback runs. -/
theorem C10_generate_mode_precedence_witness :
    PrimeNumberFinder.generate
        ⟨fun _ => false, true, true, fun _ => true, false⟩ 0 0 [] =
      ⟨PrimeNumberFinder.generatePrimes 0 0 [], [], ""⟩ :=
  (C10_generate_mode_precedence
      ⟨fun _ => false, true, true, fun _ => true, false⟩ 0 0 []).1 rfl
